import Mathlib

/-!
Shallow embedding of the Python-Project-Template repository
(src/states.py, src/program.py, src/main.py).

Modelling choices:
* Python objects are identified by `StateId`; a `Heap` maps ids to the
  mutable part of a `State` object.  This keeps Python's aliasing: the
  `StateManager` registry and `current_state` alias the same objects, so
  clearing `next_state` through `current_state` is visible through the
  registry as well.
* `State.cleanup` is abstract in the source (subclasses implement it);
  the field `cleanup_raises` abstracts whether a concrete state's
  `cleanup()` raises.  `MenuState.cleanup` is `pass`, so it never raises.
* Fallible Python code is modelled with `Option`: a `none` result stands
  for an uncaught exception escaping the modelled function.
* Logging is modelled as a list of emitted log levels.
-/

/-- Log records emitted by the modelled code, by level. -/
inductive LogLevel
  | debug
  | info
  | error
deriving Repr, DecidableEq

/-- Identity of a Python `State` object. -/
abbrev StateId := Nat

/-- The mutable attributes of a `State` object (states.py `State.__init__`):
`next_state` starts as `None`; `cleanup_raises` abstracts whether the
concrete subclass's `cleanup()` raises when invoked. -/
structure State where
  next_state : Option String
  cleanup_raises : Bool
deriving Repr, DecidableEq

/-- Object heap: every id resolves to a state object. -/
abbrev Heap := StateId → State

/-- Pointwise heap update (assignment to an attribute of one object). -/
def updHeap (h : Heap) (i : StateId) (s : State) : Heap :=
  fun j => if j = i then s else h j

/-- `State.__init__`: `next_state = None`; `MenuState.cleanup` is `pass`. -/
def State.new : State := { next_state := none, cleanup_raises := false }

/-- First-match association-list lookup, the model of Python dict lookup
(dicts preserve insertion order and our registries have distinct keys). -/
def lookupKey {α β : Type} [DecidableEq α] (l : List (α × β)) (k : α) : Option β :=
  match l with
  | [] => none
  | (k', v) :: rest => if k' = k then some v else lookupKey rest k

/-- `StateManager.MENU_KEY`. -/
def MENU_KEY : String := "menu"

/-- `StateManager.QUIT_KEY`, the reserved terminal key. -/
def QUIT_KEY : String := "quit"

/-- The `StateManager` attributes (states.py lines 260-279): the registry
`states` maps names to an optional object id (`none` is the terminal
sentinel stored under `QUIT_KEY`), and `current_state` is the id of the
active object, aliasing a registry value. -/
structure StateManager where
  states : List (String × Option StateId)
  current_state : StateId
deriving Repr, DecidableEq

/-- Id of the `MenuState()` allocated by `StateManager.__init__`. -/
def menuId : StateId := 0

/-- Heap right after `StateManager.__init__`: the menu object is fresh. -/
def initHeap : Heap := fun _ => State.new

/-- `StateManager.__init__` (states.py lines 260-279): registry holds
`menu -> MenuState()` and the terminal sentinel `quit -> None`;
`current_state` is the menu object. -/
def StateManager.new : StateManager :=
  { states := [(MENU_KEY, some menuId), (QUIT_KEY, none)]
    current_state := menuId }

/-- `StateManager.change_state` (states.py lines 281-310).
Returns `none` when the Python code would raise (the attribute
assignment `self.current_state.next_state = None` on a `None` value,
possible only if a non-terminal key mapped to the sentinel); otherwise
`some (signal, manager, heap, logs)` with signal 0 = continue, 1 = quit. -/
def StateManager.change_state (m : StateManager) (h : Heap) :
    Option (Nat × StateManager × Heap × List LogLevel) :=
  match (h m.current_state).next_state with
  | none => some (0, m, h, [])
  | some new_state_key =>
    match lookupKey m.states new_state_key with
    | none => some (1, m, h, [LogLevel.info, LogLevel.error])
    | some v =>
      if new_state_key = QUIT_KEY then
        some (1, m, h, [LogLevel.info])
      else
        match v with
        | none => none
        | some sid =>
          some (0, { m with current_state := sid },
                updHeap h sid { h sid with next_state := none },
                [LogLevel.info, LogLevel.debug])

/-- `StateManager.cleanup` (states.py lines 312-322): iterate the registry
in order; skip the terminal sentinel; invoke `cleanup()` on every state,
catching a raising cleanup and logging it.  Result: the ids whose
`cleanup()` was invoked, in order, and the ids whose cleanup raised (each
logged with `logger.exception`). -/
def StateManager.cleanup (m : StateManager) (h : Heap) :
    List StateId × List StateId :=
  m.states.foldl
    (fun acc kv =>
      match kv.2 with
      | none => acc
      | some sid =>
        if (h sid).cleanup_raises then (acc.1 ++ [sid], acc.2 ++ [sid])
        else (acc.1 ++ [sid], acc.2))
    ([], [])

-- Event dispatch (states.py State.__init__ handlers and handle_events).

/-- pygame event-type constant `pygame.QUIT`. -/
def QUIT : Nat := 256

/-- pygame event-type constant `pygame.KEYDOWN`. -/
def KEYDOWN : Nat := 768

/-- pygame event-type constant `pygame.KEYUP`. -/
def KEYUP : Nat := 769

/-- pygame event-type constant `pygame.MOUSEMOTION`. -/
def MOUSEMOTION : Nat := 1024

/-- pygame event-type constant `pygame.MOUSEBUTTONDOWN`. -/
def MOUSEBUTTONDOWN : Nat := 1025

/-- pygame event-type constant `pygame.MOUSEBUTTONUP`. -/
def MOUSEBUTTONUP : Nat := 1026

/-- pygame event-type constant `pygame.MOUSEWHEEL`. -/
def MOUSEWHEEL : Nat := 1027

/-- The bound methods a base `State`'s handler table can hold, plus the
fallback `_unhandled_method`. -/
inductive Handler
  | quitH
  | keydown
  | keyup
  | mousebuttondown
  | mousebuttonup
  | mousemotion
  | mousewheel
  | unhandled
deriving Repr, DecidableEq

/-- Behaviour of each handler on the receiving object (states.py lines
101-196): `State.quit` logs debug and sets `next_state = 'quit'`; every
other specific handler is `pass`; `_unhandled_method` only logs debug. -/
def applyHandler : Handler → State → State × List LogLevel
  | Handler.quitH, s => ({ s with next_state := some QUIT_KEY }, [LogLevel.debug])
  | Handler.unhandled, s => (s, [LogLevel.debug])
  | _, s => (s, [])

/-- The handler table built by `State.__init__` (states.py lines 38-46),
keys in source order. -/
def State.handlers : List (Nat × Handler) :=
  [(QUIT, Handler.quitH),
   (KEYDOWN, Handler.keydown),
   (KEYUP, Handler.keyup),
   (MOUSEBUTTONDOWN, Handler.mousebuttondown),
   (MOUSEBUTTONUP, Handler.mousebuttonup),
   (MOUSEMOTION, Handler.mousemotion),
   (MOUSEWHEEL, Handler.mousewheel)]

/-- One iteration of the `handle_events` loop:
`self.handlers.get(event.type, self._unhandled_method)` applied to the
event.  Events are represented by their `type` field; no handler in this
code reads any other part of the event. -/
def handleEvent (s : State) (t : Nat) : State × List LogLevel :=
  match lookupKey State.handlers t with
  | some hd => applyHandler hd s
  | none => applyHandler Handler.unhandled s

/-- `State.handle_events` (states.py lines 58-76): dispatch each event of
the batch in order, threading the object's state and the log. -/
def State.handle_events (s : State) : List Nat → State × List LogLevel
  | [] => (s, [])
  | t :: rest =>
    let r := handleEvent s t
    let r2 := State.handle_events r.1 rest
    (r2.1, r.2 ++ r2.2)

-- Program loop (program.py Program.run) and entry point (main.py main).

/-- Whether the body of one loop iteration raises, and what it raises:
`ok` = no exception, `exc` = an `Exception` (caught by the loop's
`except Exception`), `kbint` = a `KeyboardInterrupt` (derived from
`BaseException`, NOT caught by `except Exception`). -/
inductive TickFault
  | ok
  | exc
  | kbint
deriving Repr, DecidableEq

/-- Input to one loop iteration: the batch returned by
`pygame.event.get()` (as event types) and an abstract fault signal for
the iteration's body. -/
structure Tick where
  events : List Nat
  fault : TickFault
deriving Repr, DecidableEq

/-- Observable per-frame operations of `Program.run`'s loop body, in
source order (program.py lines 151-178). -/
inductive LoopAction
  | pollEvents
  | handleEventsCall
  | updateCall
  | fillCall
  | drawCall
  | changeStateCall
  | displayUpdateCall
  | clockTick
deriving Repr, DecidableEq

/-- The actions of an iteration that breaks at the `change_state` check
(the `break` runs before `pygame.display.update()` and `clock.tick`). -/
def bodyTraceBreak : List LoopAction :=
  [LoopAction.pollEvents, LoopAction.handleEventsCall, LoopAction.updateCall,
   LoopAction.fillCall, LoopAction.drawCall, LoopAction.changeStateCall]

/-- The actions of an iteration that runs to the end of the body. -/
def bodyTraceFull : List LoopAction :=
  bodyTraceBreak ++ [LoopAction.displayUpdateCall, LoopAction.clockTick]

/-- Outcome of `Program.run`: the returned exit code, the per-iteration
action trace, the final manager and heap, and whether
`logger.exception(\"Fatal error in program loop\")` ran. -/
structure RunResult where
  exit_code : Nat
  trace : List (List LoopAction)
  mgr : StateManager
  heap : Heap
  faultLogged : Bool

/-- `Program.run` (program.py lines 134-189), driven by the finite
prefix of event batches the loop consumes.  Faithful points:
* a `pygame.QUIT` event only clears `self.running`; the rest of the body
  still runs for that iteration, and the `while` condition is rechecked
  only after `display.update()`/`clock.tick`;
* `except Exception` converts a fault in the body to `exit_code = 1`
  after logging it; nothing propagates out of `run`;
* a `KeyboardInterrupt` is not caught by `except Exception`, but the
  `return self.exit_code` inside `finally` swallows the in-flight
  exception, so `run` still returns the current `exit_code` (0);
* `MenuState.update` and `MenuState.draw` are `pass`, so only
  `handle_events` and `change_state` touch the state.
A faulting iteration abstracts the body raising somewhere inside it; its
recorded trace keeps only the event poll.  `none` means the supplied
event-batch prefix was exhausted while the loop would still continue. -/
def runLoop : List Tick → StateManager → Heap → List (List LoopAction) → Option RunResult
  | [], _, _, _ => none
  | t :: rest, m, h, tr =>
    match t.fault with
    | TickFault.exc => some ⟨1, tr ++ [[LoopAction.pollEvents]], m, h, true⟩
    | TickFault.kbint => some ⟨0, tr ++ [[LoopAction.pollEvents]], m, h, false⟩
    | TickFault.ok =>
      let r := State.handle_events (h m.current_state) t.events
      let h1 := updHeap h m.current_state r.1
      match StateManager.change_state m h1 with
      | none => some ⟨1, tr ++ [bodyTraceBreak], m, h1, true⟩
      | some (sig, m2, h2, _) =>
        if sig ≠ 0 then some ⟨0, tr ++ [bodyTraceBreak], m2, h2, false⟩
        else if QUIT ∈ t.events then some ⟨0, tr ++ [bodyTraceFull], m2, h2, false⟩
        else runLoop rest m2 h2 (tr ++ [bodyTraceFull])

/-- How the code before `program.run()` in `main` ends: `Program()` and
`__enter__` succeed, or raise a `KeyboardInterrupt`, or raise an
`Exception`. -/
inductive CtorOutcome
  | ok
  | kbInterrupt
  | exc
deriving Repr, DecidableEq

/-- `main` (main.py lines 51-80): `except KeyboardInterrupt` maps to 130
and `except Exception` to 1, but only for exceptions that actually reach
`main`'s `try`; `run()` itself always returns normally (its `finally`
returns), so its result is passed through unchanged. -/
def mainModel (c : CtorOutcome) (ticks : List Tick) : Option Nat :=
  match c with
  | CtorOutcome.kbInterrupt => some 130
  | CtorOutcome.exc => some 1
  | CtorOutcome.ok =>
    match runLoop ticks StateManager.new initHeap [] with
    | none => none
    | some r => some r.exit_code

-- Specification-level predicates about a manager.

/-- Registry discipline stated by the source comment on states.py line 273
(`Only used for exiting the game loop. Don't set another state to None.`):
a registry value is the `None` sentinel exactly under the terminal key. -/
def StateManager.WF (m : StateManager) : Prop :=
  ∀ p ∈ m.states, (p.2 = none ↔ p.1 = QUIT_KEY)

/-- The claimed invariant: `current_state` is a registry value registered
under some non-terminal key (hence a live object, never the terminal
sentinel). -/
def StateManager.Inv (m : StateManager) : Prop :=
  ∃ k, k ≠ QUIT_KEY ∧ lookupKey m.states k = some (some m.current_state)

-- Concrete heaps used to exercise the theorems.

/-- Heap in which the menu object has `next_state = 'menu'` pending. -/
def heapMenuPending : Heap :=
  fun _ => { next_state := some MENU_KEY, cleanup_raises := false }

/-- Heap in which the menu object has `next_state = 'quit'` pending. -/
def heapQuitPending : Heap :=
  fun _ => { next_state := some QUIT_KEY, cleanup_raises := false }

/-- Heap in which the menu object has the unregistered name `'play'`
pending. -/
def heapPlayPending : Heap :=
  fun _ => { next_state := some "play", cleanup_raises := false }

-- Association-list lookup facts used to relate dict membership and lookup.

theorem lookupKey_eq_some_mem {α β : Type} [DecidableEq α]
    (l : List (α × β)) (k : α) (v : β)
    (hl : lookupKey l k = some v) : (k, v) ∈ l := by
  induction l with
  | nil => simp [lookupKey] at hl
  | cons p rest ih =>
    obtain ⟨k', v'⟩ := p
    by_cases hk : k' = k
    · subst hk
      simp [lookupKey] at hl
      simp [hl]
    · simp [lookupKey, hk] at hl
      exact List.mem_cons_of_mem _ (ih hl)

theorem lookupKey_eq_none_of_not_mem {α β : Type} [DecidableEq α]
    (l : List (α × β)) (k : α)
    (hk : k ∉ l.map Prod.fst) : lookupKey l k = none := by
  induction l with
  | nil => rfl
  | cons p rest ih =>
    simp only [List.map_cons, List.mem_cons, not_or] at hk
    have h1 : p.1 ≠ k := fun h => hk.1 h.symm
    obtain ⟨k', v'⟩ := p
    simp only [lookupKey, if_neg h1]
    exact ih hk.2

-- Behaviour of change_state on each branch (helper lemmas, shared).

theorem change_state_none_aux (m : StateManager) (h : Heap)
    (hn : (h m.current_state).next_state = none) :
    StateManager.change_state m h = some (0, m, h, []) := by
  unfold StateManager.change_state
  rw [hn]

theorem change_state_quit_aux (m : StateManager) (h : Heap)
    (hn : (h m.current_state).next_state = some QUIT_KEY) :
    ∃ logs, StateManager.change_state m h = some (1, m, h, logs) := by
  cases hl : lookupKey m.states QUIT_KEY with
  | none =>
    exact ⟨[LogLevel.info, LogLevel.error],
      by simp only [StateManager.change_state, hn, hl]⟩
  | some v =>
    refine ⟨[LogLevel.info], ?_⟩
    simp only [StateManager.change_state, hn, hl]
    simp

theorem change_state_switch_aux (m : StateManager) (h : Heap)
    (n : String) (sid : StateId)
    (hn : (h m.current_state).next_state = some n)
    (hq : n ≠ QUIT_KEY)
    (hl : lookupKey m.states n = some (some sid)) :
    StateManager.change_state m h =
      some (0, { m with current_state := sid },
            updHeap h sid { h sid with next_state := none },
            [LogLevel.info, LogLevel.debug]) := by
  simp only [StateManager.change_state, hn, hl, if_neg hq]

-- Event dispatch helper lemmas.

theorem handleEvent_cases (s : State) (t : Nat) :
    (handleEvent s t).1 = s ∨
    (handleEvent s t).1 = { s with next_state := some QUIT_KEY } := by
  unfold handleEvent
  cases lookupKey State.handlers t with
  | none => left; rfl
  | some hd => cases hd <;> first | (left; rfl) | (right; rfl)

theorem handle_events_preserves_quit (evs : List Nat) :
    ∀ s : State, s.next_state = some QUIT_KEY →
      ((State.handle_events s evs).1).next_state = some QUIT_KEY := by
  induction evs with
  | nil => intro s hs; exact hs
  | cons t rest ih =>
    intro s hs
    simp only [State.handle_events]
    rcases handleEvent_cases s t with hc | hc
    · rw [hc]; exact ih s hs
    · rw [hc]; exact ih _ rfl

theorem handle_events_quit_event (evs : List Nat) :
    ∀ s : State, QUIT ∈ evs →
      ((State.handle_events s evs).1).next_state = some QUIT_KEY := by
  induction evs with
  | nil => intro s hq; cases hq
  | cons t rest ih =>
    intro s hq
    simp only [State.handle_events]
    by_cases ht : t = QUIT
    · subst ht
      have hstep : handleEvent s QUIT =
          ({ s with next_state := some QUIT_KEY }, [LogLevel.debug]) := rfl
      rw [hstep]
      exact handle_events_preserves_quit rest _ rfl
    · rcases List.mem_cons.mp hq with h1 | h2
      · exact absurd h1.symm ht
      · rcases handleEvent_cases s t with hc | hc
        · rw [hc]; exact ih s h2
        · rw [hc]; exact handle_events_preserves_quit rest _ rfl

-- run-loop helper lemmas.

theorem runLoop_quit_tick_aux (t : Tick) (rest : List Tick) (m : StateManager)
    (h : Heap) (tr : List (List LoopAction))
    (hok : t.fault = TickFault.ok) (hq : QUIT ∈ t.events) :
    ∃ m2 h2 logs,
      StateManager.change_state m
        (updHeap h m.current_state
          (State.handle_events (h m.current_state) t.events).1) =
        some (1, m2, h2, logs) ∧
      runLoop (t :: rest) m h tr =
        some ⟨0, tr ++ [bodyTraceBreak], m2, h2, false⟩ := by
  obtain ⟨evs, fault⟩ := t
  simp only at hok hq
  subst hok
  have hnext :
      ((updHeap h m.current_state
          (State.handle_events (h m.current_state) evs).1)
        m.current_state).next_state = some QUIT_KEY := by
    simp only [updHeap, if_pos rfl]
    exact handle_events_quit_event evs _ hq
  obtain ⟨logs, hcs⟩ := change_state_quit_aux m _ hnext
  refine ⟨m, _, logs, hcs, ?_⟩
  simp only [runLoop]
  rw [hcs]
  simp

theorem runLoop_exit_aux :
    ∀ (ticks : List Tick) (m : StateManager) (h : Heap)
      (tr : List (List LoopAction)) (r : RunResult),
      runLoop ticks m h tr = some r → r.exit_code = 0 ∨ r.exit_code = 1 := by
  intro ticks
  induction ticks with
  | nil =>
    intro m h tr r hr
    exact absurd hr (by simp [runLoop])
  | cons t rest ih =>
    intro m h tr r hr
    obtain ⟨evs, fault⟩ := t
    cases fault with
    | exc =>
      simp only [runLoop] at hr
      injection hr with hh
      subst hh
      right; rfl
    | kbint =>
      simp only [runLoop] at hr
      injection hr with hh
      subst hh
      left; rfl
    | ok =>
      simp only [runLoop] at hr
      split at hr
      · injection hr with hh
        subst hh
        right; rfl
      · split at hr
        · injection hr with hh
          subst hh
          left; rfl
        · split at hr
          · injection hr with hh
            subst hh
            left; rfl
          · exact ih _ _ _ _ hr

-- cleanup fold helper.

theorem cleanup_foldl_aux (h : Heap) :
    ∀ (l : List (String × Option StateId)) (a b : List StateId),
      l.foldl
        (fun acc kv =>
          match kv.2 with
          | none => acc
          | some sid =>
            if (h sid).cleanup_raises then (acc.1 ++ [sid], acc.2 ++ [sid])
            else (acc.1 ++ [sid], acc.2))
        (a, b) =
      (a ++ l.filterMap Prod.snd,
       b ++ (l.filterMap Prod.snd).filter (fun sid => (h sid).cleanup_raises)) := by
  intro l
  induction l with
  | nil => intro a b; simp
  | cons kv rest ih =>
    intro a b
    obtain ⟨k, v⟩ := kv
    cases v with
    | none =>
      simp only [List.foldl_cons, List.filterMap_cons]
      exact ih a b
    | some sid =>
      cases hf : (h sid).cleanup_raises with
      | false => simp [hf, ih, List.filter_cons, List.append_assoc]
      | true => simp [hf, ih, List.filter_cons, List.append_assoc]

-- Claim theorems.

/-- C1: for every registered non-terminal state name `n`, if
`current_state.next_state` is set to `n` then `change_state()` rebinds
`current_state` to the state registered under `n`, returns the continue
signal 0, and the `next_state` of the object that is current after the
switch is cleared to `None`; the clear is applied to the now-current
object only (every other object, in particular the old current one when
distinct, is untouched), reproducing the switch-first-then-clear order. -/
theorem c1_change_state_switches (m : StateManager) (h : Heap)
    (n : String) (sid : StateId)
    (hn : (h m.current_state).next_state = some n)
    (hq : n ≠ QUIT_KEY)
    (hl : lookupKey m.states n = some (some sid)) :
    ∃ m2 h2,
      StateManager.change_state m h =
        some (0, m2, h2, [LogLevel.info, LogLevel.debug]) ∧
      m2.current_state = sid ∧
      m2.states = m.states ∧
      (h2 sid).next_state = none ∧
      ∀ j, j ≠ sid → h2 j = h j := by
  refine ⟨{ m with current_state := sid },
          updHeap h sid { h sid with next_state := none },
          change_state_switch_aux m h n sid hn hq hl, rfl, rfl, ?_, ?_⟩
  · simp [updHeap]
  · intro j hj
    simp [updHeap, hj]

/-- Witness for C1: on the constructed manager with the menu state's
`next_state` set to `'menu'`, `change_state()` switches to the registered
menu object, returns 0 and clears the flag on the now-current object. -/
theorem c1_change_state_switches_witness :
    (heapMenuPending StateManager.new.current_state).next_state = some MENU_KEY ∧
    MENU_KEY ≠ QUIT_KEY ∧
    lookupKey StateManager.new.states MENU_KEY = some (some menuId) ∧
    ∃ m2 h2,
      StateManager.change_state StateManager.new heapMenuPending =
        some (0, m2, h2, [LogLevel.info, LogLevel.debug]) ∧
      m2.current_state = menuId ∧
      m2.states = StateManager.new.states ∧
      (h2 menuId).next_state = none ∧
      ∀ j, j ≠ menuId → h2 j = heapMenuPending j :=
  ⟨rfl, by decide, rfl,
   c1_change_state_switches StateManager.new heapMenuPending MENU_KEY menuId
     rfl (by decide) rfl⟩

/-- C2: if `current_state.next_state` equals the terminal key `'quit'`,
`change_state()` returns the quit signal 1 and mutates nothing:
`current_state` still references the same prior object and the heap is
unchanged.  (The registry holds the terminal key, so the quit branch is
reached; even without that registration the unregistered-key branch
would also return 1 with no mutation.) -/
theorem c2_change_state_quit (m : StateManager) (h : Heap)
    (hn : (h m.current_state).next_state = some QUIT_KEY) :
    ∃ logs, StateManager.change_state m h = some (1, m, h, logs) :=
  change_state_quit_aux m h hn

/-- Witness for C2: the constructed manager with `next_state = 'quit'`
pending. -/
theorem c2_change_state_quit_witness :
    (heapQuitPending StateManager.new.current_state).next_state = some QUIT_KEY ∧
    ∃ logs,
      StateManager.change_state StateManager.new heapQuitPending =
        some (1, StateManager.new, heapQuitPending, logs) :=
  ⟨rfl, c2_change_state_quit StateManager.new heapQuitPending rfl⟩

/-- C3: if `current_state.next_state` names a key missing from the
registry, `change_state()` returns the quit signal 1, logs an error, and
leaves the manager and every state object unchanged; the result is
`some`, i.e. the call raises no exception (the membership test guards
the registry access). -/
theorem c3_change_state_unregistered (m : StateManager) (h : Heap)
    (n : String)
    (hn : (h m.current_state).next_state = some n)
    (hl : lookupKey m.states n = none) :
    StateManager.change_state m h =
      some (1, m, h, [LogLevel.info, LogLevel.error]) := by
  simp only [StateManager.change_state, hn, hl]

/-- Witness for C3: `'play'` is not registered in the constructed
manager; the call returns 1, logs the error and changes nothing. -/
theorem c3_change_state_unregistered_witness :
    (heapPlayPending StateManager.new.current_state).next_state = some "play" ∧
    lookupKey StateManager.new.states "play" = none ∧
    StateManager.change_state StateManager.new heapPlayPending =
      some (1, StateManager.new, heapPlayPending,
            [LogLevel.info, LogLevel.error]) :=
  ⟨rfl, by decide,
   c3_change_state_unregistered StateManager.new heapPlayPending "play" rfl
     (by decide)⟩

/-- C4: the construction establishes the invariant — `current_state`
references a live object registered under a non-terminal key and the
terminal key maps to the `None` sentinel — and, for a registry obeying
the source's sentinel discipline, every `change_state()` call returns
without raising, preserves the invariant, and leaves the registry
membership untouched; in particular the terminal key is never assigned
as `current_state`. -/
theorem c4_current_state_invariant :
    StateManager.Inv StateManager.new ∧
    lookupKey StateManager.new.states QUIT_KEY = some none ∧
    ∀ m h, StateManager.WF m → StateManager.Inv m →
      ∃ sig m2 h2 logs,
        StateManager.change_state m h = some (sig, m2, h2, logs) ∧
        StateManager.Inv m2 ∧
        m2.states = m.states := by
  refine ⟨⟨MENU_KEY, by decide, rfl⟩, rfl, ?_⟩
  intro m h hwf hinv
  cases hn : (h m.current_state).next_state with
  | none =>
    exact ⟨0, m, h, [], change_state_none_aux m h hn, hinv, rfl⟩
  | some key =>
    cases hl : lookupKey m.states key with
    | none =>
      exact ⟨1, m, h, [LogLevel.info, LogLevel.error],
        by simp only [StateManager.change_state, hn, hl], hinv, rfl⟩
    | some v =>
      by_cases hk : key = QUIT_KEY
      · subst hk
        obtain ⟨logs, hcs⟩ := change_state_quit_aux m h hn
        exact ⟨1, m, h, logs, hcs, hinv, rfl⟩
      · cases v with
        | none =>
          have hmem := lookupKey_eq_some_mem m.states key none hl
          exact absurd ((hwf _ hmem).mp rfl) hk
        | some sid =>
          exact ⟨0, { m with current_state := sid },
            updHeap h sid { h sid with next_state := none },
            [LogLevel.info, LogLevel.debug],
            change_state_switch_aux m h key sid hn hk hl,
            ⟨key, hk, hl⟩, rfl⟩

/-- Witness for C4: the invariant-preservation part applied to the
constructed manager and a fresh heap. -/
theorem c4_current_state_invariant_witness :
    StateManager.WF StateManager.new ∧
    StateManager.Inv StateManager.new ∧
    ∃ sig m2 h2 logs,
      StateManager.change_state StateManager.new initHeap =
        some (sig, m2, h2, logs) ∧
      StateManager.Inv m2 ∧
      m2.states = StateManager.new.states :=
  ⟨by unfold StateManager.WF; decide,
   ⟨MENU_KEY, by decide, rfl⟩,
   c4_current_state_invariant.2.2 StateManager.new initHeap
     (by unfold StateManager.WF; decide) ⟨MENU_KEY, by decide, rfl⟩⟩

/-- C5: `StateManager.cleanup()` invokes `cleanup()` exactly once per
non-terminal registry entry — the invocation list is exactly the
registry's non-sentinel values in registry order, independently of which
cleanups raise — and a raising cleanup is caught and logged per state
(the logged list is exactly the invoked states whose cleanup raises)
without preventing any later state's cleanup from being invoked. -/
theorem c5_cleanup_every_state (m : StateManager) (h : Heap) :
    (StateManager.cleanup m h).1 = m.states.filterMap Prod.snd ∧
    (StateManager.cleanup m h).2 =
      (m.states.filterMap Prod.snd).filter
        (fun sid => (h sid).cleanup_raises) := by
  unfold StateManager.cleanup
  rw [cleanup_foldl_aux h m.states [] []]
  simp

/-- C6: an event whose kind is not a key of the handler table is
dispatched to the logging default `_unhandled_method`: the call is total
(no exception is modelled anywhere in the dispatch), it only logs a
debug record, and the state object is unchanged — both for the single
dispatch and for that event's position inside any batch. -/
theorem c6_unregistered_event_noop (s : State) (t : Nat)
    (ht : t ∉ State.handlers.map Prod.fst) :
    handleEvent s t = (s, [LogLevel.debug]) ∧
    ∀ rest, (State.handle_events s (t :: rest)).1 =
        (State.handle_events s rest).1 ∧
      (State.handle_events s (t :: rest)).2 =
        LogLevel.debug :: (State.handle_events s rest).2 := by
  have hstep : handleEvent s t = (s, [LogLevel.debug]) := by
    unfold handleEvent
    rw [lookupKey_eq_none_of_not_mem State.handlers t ht]
    rfl
  refine ⟨hstep, ?_⟩
  intro rest
  simp [State.handle_events, hstep]

/-- Witness for C6: event kind 3 is not registered; dispatching it to a
fresh state is a logged no-op. -/
theorem c6_unregistered_event_noop_witness :
    (3 ∉ State.handlers.map Prod.fst) ∧
    handleEvent State.new 3 = (State.new, [LogLevel.debug]) ∧
    ∀ rest, (State.handle_events State.new (3 :: rest)).1 =
        (State.handle_events State.new rest).1 ∧
      (State.handle_events State.new (3 :: rest)).2 =
        LogLevel.debug :: (State.handle_events State.new rest).2 :=
  ⟨by decide, c6_unregistered_event_noop State.new 3 (by decide)⟩

/-- C7: an `Exception` raised in the loop body is caught at the loop
boundary, logged, and converted to exit code 1 — `run` still returns
normally (the loop is broken, nothing propagates).  A graceful exit —
here the window-close path, which both clears `running` and makes
`change_state` signal quit — returns exit code 0.  Moreover every
terminating run returns either 0 or 1. -/
theorem c7_run_exit_codes (t : Tick) (rest : List Tick) (m : StateManager)
    (h : Heap) (tr : List (List LoopAction)) :
    (t.fault = TickFault.exc →
      runLoop (t :: rest) m h tr =
        some ⟨1, tr ++ [[LoopAction.pollEvents]], m, h, true⟩) ∧
    (t.fault = TickFault.ok → QUIT ∈ t.events →
      ∃ m2 h2,
        runLoop (t :: rest) m h tr =
          some ⟨0, tr ++ [bodyTraceBreak], m2, h2, false⟩) ∧
    (∀ ticks m' h' tr' r, runLoop ticks m' h' tr' = some r →
      r.exit_code = 0 ∨ r.exit_code = 1) := by
  refine ⟨?_, ?_, runLoop_exit_aux⟩
  · intro hf
    obtain ⟨evs, fault⟩ := t
    simp only at hf
    subst hf
    rfl
  · intro hok hq
    obtain ⟨m2, h2, logs, _, hrun⟩ := runLoop_quit_tick_aux t rest m h tr hok hq
    exact ⟨m2, h2, hrun⟩

/-- Witness for C7: a run whose first tick raises an `Exception` returns
exit code 1 with the fault logged; a run whose first tick polls a
window-close event returns exit code 0. -/
theorem c7_run_exit_codes_witness :
    runLoop [Tick.mk [] TickFault.exc] StateManager.new initHeap [] =
      some ⟨1, [[LoopAction.pollEvents]], StateManager.new, initHeap, true⟩ ∧
    ∃ m2 h2,
      runLoop [Tick.mk [QUIT] TickFault.ok] StateManager.new initHeap [] =
        some ⟨0, [bodyTraceBreak], m2, h2, false⟩ :=
  ⟨(c7_run_exit_codes (Tick.mk [] TickFault.exc) [] StateManager.new
      initHeap []).1 rfl,
   (c7_run_exit_codes (Tick.mk [QUIT] TickFault.ok) [] StateManager.new
      initHeap []).2.1 rfl (by decide)⟩

/-- C9: calling `change_state()` while `next_state` is unset returns the
continue signal 0 and mutates nothing — the returned manager and heap
are the inputs themselves, so an immediately repeated call is applied to
identical arguments and returns the identical result (idempotence). -/
theorem c9_change_state_unset_noop (m : StateManager) (h : Heap)
    (hn : (h m.current_state).next_state = none) :
    StateManager.change_state m h = some (0, m, h, []) :=
  change_state_none_aux m h hn

/-- Witness for C9: the freshly constructed manager has no pending
transition; the call is a no-op returning 0. -/
theorem c9_change_state_unset_noop_witness :
    (initHeap StateManager.new.current_state).next_state = none ∧
    StateManager.change_state StateManager.new initHeap =
      some (0, StateManager.new, initHeap, []) :=
  ⟨rfl, c9_change_state_unset_noop StateManager.new initHeap rfl⟩

/-- C10: when the polled batch contains a window-close (`QUIT`) event,
the iteration still completes the per-frame work after the
termination-event check: the batch is dispatched to the current state,
`update`, the background fill, `draw` and `change_state()` all run (the
recorded frame trace lists them after the poll, and the final manager
and heap are those produced by `change_state` applied after the
dispatch); the loop then exits with the frame not presented (no
`display.update`/`tick` in that frame's trace, since `change_state`
signals quit and the `break` precedes them). -/
theorem c10_quit_event_completes_frame (t : Tick) (rest : List Tick)
    (m : StateManager) (h : Heap) (tr : List (List LoopAction))
    (hok : t.fault = TickFault.ok) (hq : QUIT ∈ t.events) :
    ∃ m2 h2 logs,
      StateManager.change_state m
        (updHeap h m.current_state
          (State.handle_events (h m.current_state) t.events).1) =
        some (1, m2, h2, logs) ∧
      runLoop (t :: rest) m h tr =
        some ⟨0,
          tr ++ [[LoopAction.pollEvents, LoopAction.handleEventsCall,
                  LoopAction.updateCall, LoopAction.fillCall,
                  LoopAction.drawCall, LoopAction.changeStateCall]],
          m2, h2, false⟩ :=
  runLoop_quit_tick_aux t rest m h tr hok hq

/-- Witness for C10: a single tick polling exactly one window-close
event completes the frame work and exits with code 0. -/
theorem c10_quit_event_completes_frame_witness :
    (Tick.mk [QUIT] TickFault.ok).fault = TickFault.ok ∧
    QUIT ∈ (Tick.mk [QUIT] TickFault.ok).events ∧
    ∃ m2 h2 logs,
      StateManager.change_state StateManager.new
        (updHeap initHeap StateManager.new.current_state
          (State.handle_events (initHeap StateManager.new.current_state)
            (Tick.mk [QUIT] TickFault.ok).events).1) =
        some (1, m2, h2, logs) ∧
      runLoop [Tick.mk [QUIT] TickFault.ok] StateManager.new initHeap [] =
        some ⟨0,
          [[LoopAction.pollEvents, LoopAction.handleEventsCall,
            LoopAction.updateCall, LoopAction.fillCall,
            LoopAction.drawCall, LoopAction.changeStateCall]],
          m2, h2, false⟩ :=
  ⟨rfl, by decide,
   c10_quit_event_completes_frame (Tick.mk [QUIT] TickFault.ok) []
     StateManager.new initHeap [] rfl (by decide)⟩

/-- C8 (documents a code bug, refuting the claim as stated): a
`KeyboardInterrupt` raised inside the loop does NOT yield overall exit
code 130.  `Program.run`'s `finally` block executes
`return self.exit_code`, and a `return` in a `finally` discards the
in-flight exception, so `run` returns 0 and `main`'s
`except KeyboardInterrupt` handler — whose comment says exit code 130
means a keyboard interrupt and which is clearly the intended path —
never fires: the process exits 0.  Only an interrupt raised before
`run`'s `try` (e.g. during `Program()` construction) reaches `main`'s
handler and produces 130. -/
theorem c8_keyboard_interrupt_swallowed :
    mainModel CtorOutcome.ok [Tick.mk [] TickFault.kbint] = some 0 ∧
    mainModel CtorOutcome.kbInterrupt [] = some 130 :=
  ⟨rfl, rfl⟩
